import Mathlib

/-
Verification development for the polymarket-bot-go trading bot.

The definitions below are a shallow embedding of the Go source:
  * `ClassifyPrices`, `Prices`        — internal/types (unnamed/part_002)
  * `Config`, `defaultConfig`         — internal/config defaults (unnamed/part_002)
  * `Entry`, `Inventory` operations   — internal/inventory/inventory.go
  * `FSM`, `FSM.Step`                 — internal/fsm (unnamed/part_000)
  * `Executor` dry-run paths,
    `executeAction`                   — internal/executor/executor.go, cmd/bot/main.go

Go float64 values are modelled as rationals (ℚ); timestamps are modelled as
rational seconds, with `time.Since(t)` at wall-clock `now` rendered as
`now - t`.  Go maps are modelled as association lists with unique keys
(`StateMap`) or as total functions with a default (the FSM counters).
Log strings, mutexes, JSON persistence and network errors are outside the
modelled state: persistence never fails in the model and trade history is
passed in as data.
-/

namespace PolymarketBot

/-- Market regime, mirroring `types.MarketState` (unnamed/part_002, lines 46-55). -/
inductive MarketState where
  | ARB
  | Grey
  | MomentumUp
  | MomentumDown
  | Resolved
  deriving DecidableEq, Repr

/-- Mirrors `types.max64` / `executor.max64`: `if a > b then a else b`. -/
def max64 (a b : ℚ) : ℚ := if a > b then a else b

/-- Mirrors `types.Prices`: up/down prices, their sum, and the classified state. -/
structure Prices where
  up : ℚ
  down : ℚ
  spread : ℚ
  state : MarketState
  deriving DecidableEq, Repr

/-- Mirrors `types.Prices.WinnerPrice`: the higher of the two prices (UP wins ties). -/
def Prices.winnerPrice (p : Prices) : ℚ := if p.up ≥ p.down then p.up else p.down

/-- Mirrors `types.ClassifyPrices` (unnamed/part_002, lines 90-106). -/
def ClassifyPrices (up down arbThreshold momentumTrigger : ℚ) : MarketState :=
  let winner := max64 up down
  let spread := up + down
  if winner ≥ 99/100 then MarketState.Resolved
  else if winner > momentumTrigger then
    if up > down then MarketState.MomentumUp else MarketState.MomentumDown
  else if spread < arbThreshold then MarketState.ARB
  else MarketState.Grey

/-- The configuration fields the decision core reads, mirroring the
`config` package globals (unnamed/part_002, lines 319-376). -/
structure Config where
  ARBThreshold : ℚ
  MomentumTrigger : ℚ
  MomentumMaxEntry : ℚ
  ARBOrderUSDC : ℚ
  ARBMaxUSDC : ℚ
  MomentumMainUSDC : ℚ
  MomentumHedgeUSDC : ℚ
  MomentumMaxUSDC : ℚ
  deriving DecidableEq, Repr

/-- The documented env-var defaults from `config.Load` (unnamed/part_002, lines 366-376). -/
def defaultConfig : Config :=
  { ARBThreshold := 97/100
    MomentumTrigger := 85/100
    MomentumMaxEntry := 92/100
    ARBOrderUSDC := 5
    ARBMaxUSDC := 20
    MomentumMainUSDC := 10
    MomentumHedgeUSDC := 1
    MomentumMaxUSDC := 30 }

/-- Mirrors `inventory.Entry` (inventory.go, lines 23-30). -/
structure Entry where
  upTokenID : String
  downTokenID : String
  upBalance : ℚ
  downBalance : ℚ
  totalInvested : ℚ
  totalMerged : ℚ
  deriving DecidableEq, Repr

/-- The zero `Entry`, mirroring Go `&Entry{}`. -/
def Entry.zero : Entry := ⟨"", "", 0, 0, 0, 0⟩

/-- Go `map[string]*Entry` modelled as an association list with unique keys. -/
abbrev StateMap := List (String × Entry)

/-- Map lookup, mirroring Go `inv.state[conditionID]` (comma-ok form). -/
def StateMap.find : StateMap → String → Option Entry
  | [], _ => none
  | p :: rest, k => if p.1 = k then some p.2 else StateMap.find rest k

/-- Map assignment, mirroring Go `m[k] = e`: replace the entry if the key is
present, otherwise append it. -/
def StateMap.setEntry : StateMap → String → Entry → StateMap
  | [], k, e => [(k, e)]
  | p :: rest, k, e =>
    if p.1 = k then (k, e) :: rest else p :: StateMap.setEntry rest k e

/-- Key-membership test for the modelled Go map. -/
def StateMap.hasKey (m : StateMap) (k : String) : Bool := (m.find k).isSome

/-- Mirrors `inventory.Inventory` (inventory.go, lines 33-38): the entry map and
the timestamp of the last reconcile.  The file path and mutex are not modelled. -/
structure Inventory where
  state : StateMap
  lastReconcile : ℚ
  deriving DecidableEq, Repr

/-- A fresh inventory with an empty file: mirror of `inventory.New` when no
state file exists.  Go's zero `time.Time` lies far in the past, so
`time.Since` on it always exceeds the reconcile interval; it is modelled as
instant 0, with scenario clocks chosen on the matching side of the
120-second window. -/
def Inventory.empty : Inventory := ⟨[], 0⟩

/-- Mirrors `Inventory.GetMergeablePairs` (inventory.go, lines 67-75). -/
def Inventory.GetMergeablePairs (inv : Inventory) (conditionID : String) : ℚ :=
  match inv.state.find conditionID with
  | none => 0
  | some e => min e.upBalance e.downBalance

/-- Mirrors `Inventory.ensure` (inventory.go, lines 221-228). -/
def Inventory.ensure (inv : Inventory) (conditionID upTokenID downTokenID : String) :
    Inventory :=
  match inv.state.find conditionID with
  | some _ => inv
  | none =>
    { inv with state := inv.state.setEntry conditionID ⟨upTokenID, downTokenID, 0, 0, 0, 0⟩ }

/-- Mirrors `Inventory.RecordBuy` (inventory.go, lines 107-121). -/
def Inventory.RecordBuy (inv : Inventory)
    (conditionID upTokenID downTokenID side : String) (tokens usdc : ℚ) : Inventory :=
  let inv1 := inv.ensure conditionID upTokenID downTokenID
  match inv1.state.find conditionID with
  | none => inv1
  | some e =>
    let e1 := if side = "UP" then { e with upBalance := e.upBalance + tokens }
              else { e with downBalance := e.downBalance + tokens }
    let e2 := { e1 with totalInvested := e1.totalInvested + usdc }
    { inv1 with state := inv1.state.setEntry conditionID e2 }

/-- Mirrors `Inventory.RecordMerge` (inventory.go, lines 124-138): the
"record redemption" operation of the spec. -/
def Inventory.RecordMerge (inv : Inventory) (conditionID : String) (pairs : ℚ) :
    Inventory :=
  match inv.state.find conditionID with
  | none => inv
  | some e =>
    let mergeable := min pairs (min e.upBalance e.downBalance)
    let e1 := { e with upBalance := e.upBalance - mergeable,
                       downBalance := e.downBalance - mergeable,
                       totalMerged := e.totalMerged + mergeable }
    { inv with state := inv.state.setEntry conditionID e1 }

/-- Mirrors `clob.Trade` (clob/client.go, lines 272-281); the `Size` and `Price`
strings are modelled already parsed (`parseFloatStr` yields 0 on failure). -/
structure Trade where
  market : String
  side : String
  outcome : String
  size : ℚ
  price : ℚ
  status : String
  assetID : String
  deriving DecidableEq, Repr

/-- One iteration of the rebuild loop in `ReconcileFromAPI`
(inventory.go, lines 164-196). -/
def applyTradeToState (st : StateMap) (t : Trade) : StateMap :=
  if t.market = "" then st
  else if t.status ≠ "CONFIRMED" ∧ t.status ≠ "MATCHED" then st
  else if t.side ≠ "BUY" then st
  else if t.size = 0 then st
  else
    let e0 := (st.find t.market).getD Entry.zero
    let price := if t.price = 0 then 1 else t.price
    let e1 := { e0 with totalInvested := e0.totalInvested + t.size * price }
    let e2 :=
      if t.outcome = "UP" ∨ t.outcome = "YES" then
        { e1 with upBalance := e1.upBalance + t.size, upTokenID := t.assetID }
      else if t.outcome = "DOWN" ∨ t.outcome = "NO" then
        { e1 with downBalance := e1.downBalance + t.size, downTokenID := t.assetID }
      else e1
    st.setEntry t.market e2

/-- The post-rebuild loop of `ReconcileFromAPI` (inventory.go, lines 199-206):
carry each rebuilt market's previously recorded merged total over and subtract
it from the rebuilt balances, clamped at 0. -/
def subtractMerged (old : StateMap) (m : StateMap) : StateMap :=
  m.map (fun p =>
    match old.find p.1 with
    | none => p
    | some existing =>
      let tm := existing.totalMerged
      (p.1, { p.2 with totalMerged := tm,
                       upBalance := max 0 (p.2.upBalance - tm),
                       downBalance := max 0 (p.2.downBalance - tm) }))

/-- `reconcileInterval = 120 * time.Second` (inventory.go, line 20), in seconds. -/
def reconcileInterval : ℚ := 120

/-- Mirrors `Inventory.ReconcileFromAPI` (inventory.go, lines 144-217) with the
trade history supplied as data (the `client.GetTrades` error path is out of the
model).  Returns the Go `(int, error)` int: `-1` when rate-limited, otherwise
the number of rebuilt markets. -/
def Inventory.ReconcileFromAPI (inv : Inventory) (now : ℚ) (force : Bool)
    (trades : List Trade) : Int × Inventory :=
  if force = false ∧ now - inv.lastReconcile < reconcileInterval then
    (-1, inv)
  else
    let inv1 : Inventory := { inv with lastReconcile := now }
    if trades.isEmpty then (0, inv1)
    else
      let newState := subtractMerged inv1.state (trades.foldl applyTradeToState [])
      ((newState.length : Int), { inv1 with state := newState })

/-- `momentumCooldown = 120 * time.Second` (unnamed/part_000, line 37), in seconds. -/
def momentumCooldown : ℚ := 120

/-- `arbCooldown = 5 * time.Second` (unnamed/part_000, line 38), in seconds. -/
def arbCooldown : ℚ := 5

/-- Mirrors `types.BotState` (unnamed/part_002, lines 118-127). -/
inductive BotState where
  | Idle
  | ARB
  | Grey
  | MomentumUp
  | MomentumDown
  | Resolution
  deriving DecidableEq, Repr

/-- Mirrors `types.ActionKind` (unnamed/part_002, lines 149-158). -/
inductive ActionKind where
  | wait
  | skip
  | buyArb
  | buyMomentum
  | merge
  | buyArbBoth
  deriving DecidableEq, Repr

/-- Mirrors `types.Action` (unnamed/part_002, lines 161-170) minus the
human-readable `Reason` log string. -/
structure Action where
  kind : ActionKind
  side : String
  mainSide : String
  hedgeSide : String
  mainUSDC : ℚ
  hedgeUSDC : ℚ
  arbUSDC : ℚ
  deriving DecidableEq, Repr

/-- Mirrors `types.WaitAction`. -/
def WaitAction : Action := ⟨ActionKind.wait, "", "", "", 0, 0, 0⟩

/-- Mirrors `types.SkipAction`. -/
def SkipAction : Action := ⟨ActionKind.skip, "", "", "", 0, 0, 0⟩

/-- Mirrors `types.MergeAction`. -/
def MergeAction : Action := ⟨ActionKind.merge, "", "", "", 0, 0, 0⟩

/-- Mirrors `types.BuyMomentumAction`. -/
def BuyMomentumAction (main hedge : String) (mainUSDC hedgeUSDC : ℚ) : Action :=
  ⟨ActionKind.buyMomentum, "", main, hedge, mainUSDC, hedgeUSDC, 0⟩

/-- Mirrors `types.BuyArbBothAction` (unnamed/part_002, lines 205-215). -/
def BuyArbBothAction (upUSDC downUSDC : ℚ) : Action :=
  ⟨ActionKind.buyArbBoth, "", "UP", "DOWN", upUSDC, downUSDC, upUSDC + downUSDC⟩

/-- Mirrors `fsm.FSM` (unnamed/part_000, lines 18-24): per-market cooldown
timestamps and strategy spend counters.  Go map reads default to absence
(`Option`) for the timestamp maps and to `0` for the spend maps. -/
structure FSM where
  lastMomentumTS : String → Option ℚ
  momentumSpent : String → ℚ
  lastArbTS : String → Option ℚ
  arbSpent : String → ℚ

/-- Mirrors `fsm.New` (unnamed/part_000, lines 27-34). -/
def FSM.new : FSM := ⟨fun _ => none, fun _ => 0, fun _ => none, fun _ => 0⟩

/-- Pointwise map update, mirroring Go `m[k] = v`. -/
def updFn {α : Type} (f : String → α) (k : String) (v : α) : String → α :=
  fun x => if x = k then v else f x

/-- The `(types.BotState, types.Action)` pair returned by `FSM.Step`, together
with the (mutated-in-place in Go) FSM state after the call. -/
structure StepResult where
  botState : BotState
  action : Action
  fsm : FSM

/-- The cooldown test in `FSM.Step`: Go's
`if last, ok := m[id]; ok { remaining := cooldown - time.Since(last); remaining > 0 }`. -/
def cooldownActive (lastTS : Option ℚ) (cooldown now : ℚ) : Bool :=
  match lastTS with
  | some last => decide (cooldown - (now - last) > 0)
  | none => false

/-- Mirrors `fsm.FSM.Step` (unnamed/part_000, lines 42-153).  `now` is the
wall clock: `time.Since(last)` is `now - last` and `time.Now()` is `now`. -/
def FSM.Step (f : FSM) (cfg : Config) (conditionID : String) (prices : Prices)
    (inv : Inventory) (minutesToClose : ℚ) (now : ℚ) : StepResult :=
  if prices.state = MarketState.Resolved ∨ minutesToClose < 1 then
    let pairs := inv.GetMergeablePairs conditionID
    if pairs > 1/100 then ⟨BotState.Resolution, MergeAction, f⟩
    else ⟨BotState.Resolution, SkipAction, f⟩
  else if prices.state = MarketState.MomentumUp ∨ prices.state = MarketState.MomentumDown then
    let mainSide := if prices.state = MarketState.MomentumUp then "UP" else "DOWN"
    let hedgeSide := if prices.state = MarketState.MomentumUp then "DOWN" else "UP"
    let botState := if prices.state = MarketState.MomentumUp then BotState.MomentumUp
                    else BotState.MomentumDown
    if prices.winnerPrice > cfg.MomentumMaxEntry then ⟨botState, SkipAction, f⟩
    else
      let spent := f.momentumSpent conditionID
      if spent ≥ cfg.MomentumMaxUSDC then ⟨botState, SkipAction, f⟩
      else
        if cooldownActive (f.lastMomentumTS conditionID) momentumCooldown now then
          ⟨botState, WaitAction, f⟩
        else
          let leftover := cfg.MomentumMaxUSDC - spent
          let remaining := if leftover < cfg.MomentumMainUSDC then leftover
                           else cfg.MomentumMainUSDC
          let f1 : FSM := { f with
            lastMomentumTS := updFn f.lastMomentumTS conditionID (some now),
            momentumSpent := updFn f.momentumSpent conditionID
              (spent + remaining + cfg.MomentumHedgeUSDC) }
          ⟨botState, BuyMomentumAction mainSide hedgeSide remaining cfg.MomentumHedgeUSDC, f1⟩
  else if prices.state = MarketState.Grey then
    ⟨BotState.Grey, WaitAction, f⟩
  else if prices.state = MarketState.ARB then
    let arbSp := f.arbSpent conditionID
    if arbSp ≥ cfg.ARBMaxUSDC then ⟨BotState.ARB, SkipAction, f⟩
    else
      if cooldownActive (f.lastArbTS conditionID) arbCooldown now then
        ⟨BotState.ARB, SkipAction, f⟩
      else
        let f1 : FSM := { f with
          lastArbTS := updFn f.lastArbTS conditionID (some now),
          arbSpent := updFn f.arbSpent conditionID (arbSp + cfg.ARBOrderUSDC * 2) }
        ⟨BotState.ARB, BuyArbBothAction cfg.ARBOrderUSDC cfg.ARBOrderUSDC, f1⟩
  else ⟨BotState.Idle, SkipAction, f⟩

/-- The market fields the execution path reads, from `types.Market`. -/
structure Market where
  conditionID : String
  upTokenID : String
  downTokenID : String
  deriving DecidableEq, Repr

/-- Mirrors the dry-run path of `Executor.BuyMarket` (executor.go, lines 47-60):
record an estimated fill of `usdc / max64(priceHint, 0.01)` tokens. -/
def Executor.BuyMarketDry (inv : Inventory)
    (conditionID upTokenID downTokenID side : String) (usdcAmount priceHint : ℚ) :
    Inventory :=
  let tokenEstimate := usdcAmount / max64 priceHint (1/100)
  inv.RecordBuy conditionID upTokenID downTokenID side tokenEstimate usdcAmount

/-- Mirrors `Executor.MergePairs` (executor.go, lines 115-145) on its dry-run
branch: the pre-merge reconcile call (with `force = false`, exactly as in the
source), the pair computation and the merge recording. -/
def Executor.MergePairsDry (inv : Inventory) (conditionID : String) (now : ℚ)
    (trades : List Trade) : ℚ × Inventory :=
  let inv1 := (inv.ReconcileFromAPI now false trades).2
  let pairs := inv1.GetMergeablePairs conditionID
  if pairs < 1/100 then (0, inv1)
  else (pairs, inv1.RecordMerge conditionID pairs)

/-- Mirrors `executeAction` (cmd/bot/main.go, lines 195-249) in dry-run mode,
returning the inventory after the tick's action is executed.  The Go `switch`
has cases for wait, skip, `buy_arb`, `buy_momentum` and `merge` only; an
action of kind `buy_arb_both` matches no case, so nothing runs and the
inventory is returned unchanged. -/
def executeAction (m : Market) (action : Action) (prices : Prices)
    (inv : Inventory) (now : ℚ) (trades : List Trade) : Inventory :=
  match action.kind with
  | ActionKind.wait => inv
  | ActionKind.skip => inv
  | ActionKind.buyArb =>
    let priceHint := if action.side = "DOWN" then prices.down else prices.up
    Executor.BuyMarketDry inv m.conditionID m.upTokenID m.downTokenID action.side
      action.arbUSDC priceHint
  | ActionKind.buyMomentum =>
    let mainPrice := if action.mainSide = "DOWN" then prices.down else prices.up
    let hedgePrice := prices.down
    let inv1 := Executor.BuyMarketDry inv m.conditionID m.upTokenID m.downTokenID
      action.mainSide action.mainUSDC mainPrice
    Executor.BuyMarketDry inv1 m.conditionID m.upTokenID m.downTokenID
      action.hedgeSide action.hedgeUSDC hedgePrice
  | ActionKind.merge => (Executor.MergePairsDry inv m.conditionID now trades).2
  | ActionKind.buyArbBoth => inv

/-- One ledger mutation, for quantifying over operation sequences. -/
inductive LedgerOp where
  | buy (conditionID upTokenID downTokenID side : String) (tokens usdc : ℚ)
  | merge (conditionID : String) (pairs : ℚ)
  | reconcile (now : ℚ) (force : Bool) (trades : List Trade)

/-- Interpret one `LedgerOp` on an inventory. -/
def applyLedgerOp (inv : Inventory) : LedgerOp → Inventory
  | LedgerOp.buy c u d s t usd => inv.RecordBuy c u d s t usd
  | LedgerOp.merge c p => inv.RecordMerge c p
  | LedgerOp.reconcile now force trades => (inv.ReconcileFromAPI now force trades).2

/-- Interpret a sequence of ledger mutations, left to right. -/
def applyLedgerOps (inv : Inventory) (ops : List LedgerOp) : Inventory :=
  ops.foldl applyLedgerOp inv

/-- Whether a `LedgerOp` is a reconciliation. -/
def LedgerOp.isReconcile : LedgerOp → Bool
  | LedgerOp.reconcile _ _ _ => true
  | _ => false

/-- The inputs of one `FSM.Step` call, for quantifying over call sequences. -/
structure StepInput where
  conditionID : String
  prices : Prices
  inv : Inventory
  minutesToClose : ℚ
  now : ℚ

/-- Run a sequence of `FSM.Step` calls, keeping only the engine state. -/
def FSM.runSteps (f : FSM) (cfg : Config) (steps : List StepInput) : FSM :=
  steps.foldl
    (fun g s => (g.Step cfg s.conditionID s.prices s.inv s.minutesToClose s.now).fsm) f

/-! ### Concrete scenario data -/

/-- The C1 scenario prices: UP = 0.50, DOWN = 0.45, classified with the default
thresholds (as `pricer.GetPrices` does via `types.ClassifyPrices`). -/
def c1Prices : Prices :=
  ⟨1/2, 9/20, 19/20,
    ClassifyPrices (1/2) (9/20) defaultConfig.ARBThreshold defaultConfig.MomentumTrigger⟩

/-- The C1 scenario market. -/
def c1Market : Market := ⟨"m1", "u", "d"⟩

/-- A buy recorded for market "m1". -/
def c2buy : LedgerOp := LedgerOp.buy "m1" "u" "d" "UP" 5 5

/-- A forced reconcile whose trade history mentions only market "m2". -/
def c2reconcile : LedgerOp :=
  LedgerOp.reconcile 0 true [⟨"m2", "BUY", "UP", 1, 1/2, "CONFIRMED", "a"⟩]

/-- An inventory that last reconciled at time 0. -/
def c3inv : Inventory := ⟨[], 0⟩

/-- A trade history holding five confirmed pairs for market "m3". -/
def c3trades : List Trade :=
  [⟨"m3", "BUY", "UP", 5, 1/2, "CONFIRMED", "a"⟩,
   ⟨"m3", "BUY", "DOWN", 5, 1/2, "CONFIRMED", "b"⟩]

/-- Momentum-regime prices: UP = 0.90, DOWN = 0.10, classified with the default
thresholds (0.90 > trigger 0.85 and 0.90 ≤ entry ceiling 0.92). -/
def pMomentum : Prices :=
  ⟨9/10, 1/10, 1,
    ClassifyPrices (9/10) (1/10) defaultConfig.ARBThreshold defaultConfig.MomentumTrigger⟩

/-- An FSM that has already spent the full momentum cap of 30 on market "m9". -/
def c9fsm : FSM := { FSM.new with momentumSpent := updFn (fun _ => 0) "m9" 30 }

/-- An inventory holding five redeemable pairs for market "m9". -/
def c9inv : Inventory := ⟨[("m9", ⟨"u", "d", 5, 5, 10, 0⟩)], 0⟩

/-! ### Helper lemmas about the map model -/

/-- Looking up the key just assigned returns the assigned entry. -/
theorem StateMap.find_setEntry_self (m : StateMap) (k : String) (e : Entry) :
    (m.setEntry k e).find k = some e := by
  induction m with
  | nil => simp [StateMap.setEntry, StateMap.find]
  | cons p rest ih =>
    by_cases h : p.1 = k
    · simp [StateMap.setEntry, StateMap.find, h]
    · simp [StateMap.setEntry, StateMap.find, h, ih]

/-- Assigning one key leaves lookups of other keys unchanged. -/
theorem StateMap.find_setEntry_ne (m : StateMap) (k k' : String) (e : Entry)
    (h : k' ≠ k) : (m.setEntry k' e).find k = m.find k := by
  have h2 : k ≠ k' := Ne.symm h
  induction m with
  | nil => simp [StateMap.setEntry, StateMap.find, h]
  | cons p rest ih =>
    by_cases hp : p.1 = k'
    · simp [StateMap.setEntry, StateMap.find, hp, h, h2, ih]
    · by_cases hk : p.1 = k
      · simp [StateMap.setEntry, StateMap.find, hp, hk, h, h2]
      · simp [StateMap.setEntry, StateMap.find, hp, hk, ih]

/-- Map assignment never removes a key. -/
theorem StateMap.hasKey_setEntry (m : StateMap) (k k' : String) (e : Entry)
    (h : m.hasKey k = true) : (m.setEntry k' e).hasKey k = true := by
  unfold StateMap.hasKey at *
  by_cases hk : k' = k
  · subst hk
    rw [StateMap.find_setEntry_self]
    rfl
  · rw [StateMap.find_setEntry_ne _ _ _ _ hk]
    exact h

/-- `ensure` never removes a ledger entry. -/
theorem Inventory.hasKey_ensure (inv : Inventory) (cid u d : String) (id : String)
    (h : inv.state.hasKey id = true) :
    ((inv.ensure cid u d).state).hasKey id = true := by
  unfold Inventory.ensure
  split
  · exact h
  · exact StateMap.hasKey_setEntry _ _ _ _ h

/-- `RecordBuy` never removes a ledger entry. -/
theorem Inventory.hasKey_RecordBuy (inv : Inventory) (cid u d s : String)
    (tokens usdc : ℚ) (id : String) (h : inv.state.hasKey id = true) :
    ((inv.RecordBuy cid u d s tokens usdc).state).hasKey id = true := by
  have h1 : ((inv.ensure cid u d).state).hasKey id = true :=
    Inventory.hasKey_ensure inv cid u d id h
  simp only [Inventory.RecordBuy]
  split
  · exact h1
  · exact StateMap.hasKey_setEntry _ _ _ _ h1

/-- `RecordMerge` never removes a ledger entry. -/
theorem Inventory.hasKey_RecordMerge (inv : Inventory) (cid : String) (pairs : ℚ)
    (id : String) (h : inv.state.hasKey id = true) :
    ((inv.RecordMerge cid pairs).state).hasKey id = true := by
  unfold Inventory.RecordMerge
  split
  · exact h
  · exact StateMap.hasKey_setEntry _ _ _ _ h

/-! ### Claim C6 -/

/-- Claim C6: for all price pairs and all threshold values, if the higher price
is at least 0.99 the classifier returns `RESOLVED`, regardless of the spread,
the momentum trigger and the arbitrage threshold. -/
theorem C6_resolved_priority (up down arbT momT : ℚ)
    (h : max64 up down ≥ 99/100) :
    ClassifyPrices up down arbT momT = MarketState.Resolved := by
  simp only [ClassifyPrices]
  rw [if_pos h]

/-- Witness for C6 at the spec's example `classify(0.99, 0.50)` with the
default thresholds 0.97 and 0.85. -/
theorem C6_resolved_priority_witness :
    max64 (99/100) (1/2) ≥ 99/100 ∧
    ClassifyPrices (99/100) (1/2) (97/100) (85/100) = MarketState.Resolved :=
  ⟨by with_unfolding_all decide, C6_resolved_priority (99/100) (1/2) (97/100) (85/100) (by with_unfolding_all decide)⟩

/-! ### Claim C7 -/

/-- Claim C7: below the resolution threshold, the classifier returns a momentum
regime exactly when the higher price strictly exceeds the momentum trigger
(so at equality the result is not momentum), and within the momentum case it
returns `MOMENTUM_UP` exactly when the UP price is the strict maximum
(`MOMENTUM_DOWN` otherwise). -/
theorem C7_momentum_boundary_strict (a b arbT momT : ℚ)
    (h : max64 a b < 99/100) :
    ((ClassifyPrices a b arbT momT = MarketState.MomentumUp ∨
      ClassifyPrices a b arbT momT = MarketState.MomentumDown) ↔ max64 a b > momT) ∧
    (max64 a b > momT →
      (ClassifyPrices a b arbT momT = MarketState.MomentumUp ↔ a > b)) := by
  have hn : ¬ (max64 a b ≥ 99/100) := not_le.mpr h
  by_cases hm : max64 a b > momT
  · by_cases hab : a > b
    · simp [ClassifyPrices, hn, hm, hab]
    · simp [ClassifyPrices, hn, hm, hab]
  · by_cases hs : a + b < arbT
    · simp [ClassifyPrices, hn, hm, hs]
    · simp [ClassifyPrices, hn, hm, hs]

/-- Witness for C7 at the spec's example `classify(0.86, 0.14)` with
momentum trigger 0.85 and arbitrage threshold 0.97. -/
theorem C7_momentum_boundary_strict_witness :
    max64 (86/100) (14/100) < 99/100 ∧
    (((ClassifyPrices (86/100) (14/100) (97/100) (85/100) = MarketState.MomentumUp ∨
       ClassifyPrices (86/100) (14/100) (97/100) (85/100) = MarketState.MomentumDown) ↔
        max64 (86/100) (14/100) > 85/100) ∧
     (max64 (86/100) (14/100) > 85/100 →
       (ClassifyPrices (86/100) (14/100) (97/100) (85/100) = MarketState.MomentumUp ↔
         (86/100 : ℚ) > 14/100))) :=
  ⟨by with_unfolding_all decide, C7_momentum_boundary_strict (86/100) (14/100) (97/100) (85/100) (by with_unfolding_all decide)⟩

/-! ### Claim C5 -/

/-- Claim C5: on a tracked entry, `RecordMerge` decrements both leg balances by
exactly `min(requested, min(legA, legB))`, increments the cumulative merged
total by the same clamped amount, and neither resulting balance is negative
when the entry's balances were; on an untracked market it is a no-op. -/
theorem C5_redemption_clamped (inv : Inventory) (id : String) (pairs : ℚ) :
    (∀ e, inv.state.find id = some e →
      (inv.RecordMerge id pairs).state.find id =
        some { e with
          upBalance := e.upBalance - min pairs (min e.upBalance e.downBalance),
          downBalance := e.downBalance - min pairs (min e.upBalance e.downBalance),
          totalMerged := e.totalMerged + min pairs (min e.upBalance e.downBalance) } ∧
      0 ≤ e.upBalance - min pairs (min e.upBalance e.downBalance) ∧
      0 ≤ e.downBalance - min pairs (min e.upBalance e.downBalance)) ∧
    (inv.state.find id = none → inv.RecordMerge id pairs = inv) := by
  constructor
  · intro e he
    refine ⟨?_, ?_, ?_⟩
    · unfold Inventory.RecordMerge
      rw [he]
      exact StateMap.find_setEntry_self _ _ _
    · have h1 : min pairs (min e.upBalance e.downBalance) ≤ e.upBalance :=
        le_trans (min_le_right _ _) (min_le_left _ _)
      linarith
    · have h1 : min pairs (min e.upBalance e.downBalance) ≤ e.downBalance :=
        le_trans (min_le_right _ _) (min_le_right _ _)
      linarith
  · intro he
    unfold Inventory.RecordMerge
    rw [he]

/-- Witness for C5 at the spec's example: requesting 1000 pairs on an entry
with legA = 3, legB = 2 leaves legA = 1, legB = 0 and adds 2 to the merged
total; the untracked market "zz" is untouched. -/
theorem C5_redemption_clamped_witness :
    (⟨[("m5", ⟨"u", "d", 3, 2, 10, 0⟩)], 0⟩ : Inventory).state.find "m5" =
        some ⟨"u", "d", 3, 2, 10, 0⟩ ∧
    ((⟨[("m5", ⟨"u", "d", 3, 2, 10, 0⟩)], 0⟩ : Inventory).RecordMerge "m5" 1000).state.find "m5" =
      some { (⟨"u", "d", 3, 2, 10, 0⟩ : Entry) with
        upBalance := 3 - min 1000 (min 3 2),
        downBalance := 2 - min 1000 (min 3 2),
        totalMerged := 0 + min 1000 (min 3 2) } ∧
    (0:ℚ) ≤ 3 - min 1000 (min 3 2) ∧ (0:ℚ) ≤ 2 - min 1000 (min 3 2) :=
  ⟨by with_unfolding_all decide,
    (C5_redemption_clamped ⟨[("m5", ⟨"u", "d", 3, 2, 10, 0⟩)], 0⟩ "m5" 1000).1
      ⟨"u", "d", 3, 2, 10, 0⟩ (by with_unfolding_all decide)⟩

/-! ### Claim C10 -/

/-- A non-forced reconcile within the 120-second window is the no-op sentinel. -/
theorem Inventory.reconcile_within_window (inv : Inventory) (now : ℚ)
    (trades : List Trade) (h : now - inv.lastReconcile < reconcileInterval) :
    inv.ReconcileFromAPI now false trades = (-1, inv) := by
  unfold Inventory.ReconcileFromAPI
  rw [if_pos ⟨rfl, h⟩]

/-- Claim C10: a first non-forced reconcile outside the 120-second window
performs the rebuild (its result is the non-negative market count and the
rate-limit clock is reset), and a second non-forced call within 120 seconds of
it changes nothing and returns the sentinel `-1`, which is distinct from the
`0` meaning no markets were found. -/
theorem C10_reconcile_rate_limited (inv : Inventory) (trades1 trades2 : List Trade)
    (now1 now2 : ℚ)
    (h1 : ¬ now1 - inv.lastReconcile < reconcileInterval)
    (h2 : now2 - now1 < reconcileInterval) :
    (inv.ReconcileFromAPI now1 false trades1).2.lastReconcile = now1 ∧
    0 ≤ (inv.ReconcileFromAPI now1 false trades1).1 ∧
    (inv.ReconcileFromAPI now1 false trades1).2.ReconcileFromAPI now2 false trades2
      = (-1, (inv.ReconcileFromAPI now1 false trades1).2) ∧
    ((inv.ReconcileFromAPI now1 false trades1).2.ReconcileFromAPI now2 false trades2).1
      ≠ 0 := by
  have hc1 : ¬ (false = false ∧ now1 - inv.lastReconcile < reconcileInterval) :=
    fun hand => h1 hand.2
  have hfst : (inv.ReconcileFromAPI now1 false trades1).2.lastReconcile = now1 ∧
      0 ≤ (inv.ReconcileFromAPI now1 false trades1).1 := by
    unfold Inventory.ReconcileFromAPI
    rw [if_neg hc1]
    by_cases he : trades1.isEmpty
    · simp [he]
    · simp [he]
  have hsnd : (inv.ReconcileFromAPI now1 false trades1).2.ReconcileFromAPI now2 false trades2
      = (-1, (inv.ReconcileFromAPI now1 false trades1).2) :=
    Inventory.reconcile_within_window _ _ _ (by rw [hfst.1]; exact h2)
  exact ⟨hfst.1, hfst.2, hsnd, by rw [hsnd]; show (-1 : Int) ≠ 0; decide⟩

/-- Witness for C10: a fresh inventory, a first reconcile at `now = 200` and a
second at `now = 260`, with one confirmed BUY trade in the history. -/
theorem C10_reconcile_rate_limited_witness :
    ¬ (200 : ℚ) - Inventory.empty.lastReconcile < reconcileInterval ∧
    (260 : ℚ) - 200 < reconcileInterval ∧
    ((Inventory.empty.ReconcileFromAPI 200 false
        [⟨"m3", "BUY", "UP", 5, 1/2, "CONFIRMED", "a"⟩]).2.lastReconcile = 200 ∧
     0 ≤ (Inventory.empty.ReconcileFromAPI 200 false
        [⟨"m3", "BUY", "UP", 5, 1/2, "CONFIRMED", "a"⟩]).1 ∧
     (Inventory.empty.ReconcileFromAPI 200 false
        [⟨"m3", "BUY", "UP", 5, 1/2, "CONFIRMED", "a"⟩]).2.ReconcileFromAPI 260 false []
       = (-1, (Inventory.empty.ReconcileFromAPI 200 false
           [⟨"m3", "BUY", "UP", 5, 1/2, "CONFIRMED", "a"⟩]).2) ∧
     ((Inventory.empty.ReconcileFromAPI 200 false
        [⟨"m3", "BUY", "UP", 5, 1/2, "CONFIRMED", "a"⟩]).2.ReconcileFromAPI 260 false []).1
       ≠ 0) :=
  ⟨by with_unfolding_all decide, by with_unfolding_all decide,
    C10_reconcile_rate_limited Inventory.empty
      [⟨"m3", "BUY", "UP", 5, 1/2, "CONFIRMED", "a"⟩] [] 200 260 (by with_unfolding_all decide)
      (by with_unfolding_all decide)⟩

/-! ### Claim C1 -/

/-- Claim C1 (code defect): on the tick with prices UP = 0.50, DOWN = 0.45, no
prior decision state and 60 minutes to close, the classifier yields `ARB` and
the decision engine emits the both-sides buy with the two configured $5 order
sizes — but executing the tick's action leaves the ledger unchanged, because
`executeAction`'s switch has no case for the `buy_arb_both` action kind. -/
theorem C1_buy_both_action_dropped :
    c1Prices.state = MarketState.ARB ∧
    (FSM.new.Step defaultConfig "m1" c1Prices Inventory.empty 60 0).botState
      = BotState.ARB ∧
    (FSM.new.Step defaultConfig "m1" c1Prices Inventory.empty 60 0).action
      = BuyArbBothAction defaultConfig.ARBOrderUSDC defaultConfig.ARBOrderUSDC ∧
    executeAction c1Market
      (FSM.new.Step defaultConfig "m1" c1Prices Inventory.empty 60 0).action
      c1Prices Inventory.empty 0 [] = Inventory.empty := by
  with_unfolding_all decide

/-! ### Claim C2 -/

/-- Counterexample to claim C2: a buy creates the ledger entry for market "m1",
but a subsequent rebuild from a trade history that has no trades for "m1"
deletes the entry — `ReconcileFromAPI` replaces the whole entry map. -/
theorem C2_cex_reconcile_deletes_entry :
    (applyLedgerOps Inventory.empty [c2buy]).state.hasKey "m1" = true ∧
    (applyLedgerOps Inventory.empty [c2buy, c2reconcile]).state.hasKey "m1" = false := by
  with_unfolding_all decide

/-- Claim C2 (amended): every market entry ever created survives any sequence
of `RecordBuy` and `RecordMerge` calls; only a trade-history rebuild can drop
an entry. -/
theorem C2_entries_survive_buys_and_redemptions :
    ∀ (ops : List LedgerOp) (inv : Inventory) (id : String),
      inv.state.hasKey id = true →
      (∀ op ∈ ops, op.isReconcile = false) →
      (applyLedgerOps inv ops).state.hasKey id = true := by
  intro ops
  induction ops with
  | nil => intro inv id hid _; exact hid
  | cons op rest ih =>
    intro inv id hid hops
    have hop : op.isReconcile = false := hops op (List.mem_cons_self op rest)
    have hstep : (applyLedgerOp inv op).state.hasKey id = true := by
      cases op with
      | buy c u d s t usd => exact Inventory.hasKey_RecordBuy inv c u d s t usd id hid
      | merge c p => exact Inventory.hasKey_RecordMerge inv c p id hid
      | reconcile n fc tr => simp [LedgerOp.isReconcile] at hop
    exact ih (applyLedgerOp inv op) id hstep (fun o ho => hops o (List.mem_cons_of_mem op ho))

/-- Witness for the amended C2: the "m1" entry survives a buy followed by a
redemption. -/
theorem C2_entries_survive_witness :
    (⟨[("m1", Entry.zero)], 0⟩ : Inventory).state.hasKey "m1" = true ∧
    (∀ op ∈ [c2buy, LedgerOp.merge "m1" 2], op.isReconcile = false) ∧
    (applyLedgerOps ⟨[("m1", Entry.zero)], 0⟩
        [c2buy, LedgerOp.merge "m1" 2]).state.hasKey "m1" = true :=
  ⟨by with_unfolding_all decide, by with_unfolding_all decide,
    C2_entries_survive_buys_and_redemptions [c2buy, LedgerOp.merge "m1" 2]
      ⟨[("m1", Entry.zero)], 0⟩ "m1" (by with_unfolding_all decide)
      (by with_unfolding_all decide)⟩

/-! ### Claim C3 -/

/-- Counterexample to claim C3: with the last reconcile 60 seconds ago, the
coordinator's merge path performs no rebuild at all — its reconcile call (made
with `force = false`) returns the rate-limited sentinel and the ledger stays
empty, even though a forced reconcile over the same trade history would have
rebuilt five pairs for "m3". -/
theorem C3_cex_merge_reconcile_not_forced :
    Executor.MergePairsDry c3inv "m3" 60 c3trades = (0, c3inv) ∧
    (c3inv.ReconcileFromAPI 60 false c3trades).1 = -1 ∧
    (c3inv.ReconcileFromAPI 60 true c3trades).2.state.hasKey "m3" = true := by
  with_unfolding_all decide

/-- Claim C3 (amended): the merge path begins with a reconcile call made with
`force = false`, so inside the 120-second rate-limit window no rebuild happens
and the redeemable-pair computation uses the existing ledger state. -/
theorem C3_merge_reconcile_rate_limited (inv : Inventory) (cid : String) (now : ℚ)
    (trades : List Trade) (h : now - inv.lastReconcile < reconcileInterval) :
    Executor.MergePairsDry inv cid now trades =
      (if inv.GetMergeablePairs cid < 1/100 then ((0 : ℚ), inv)
       else (inv.GetMergeablePairs cid, inv.RecordMerge cid (inv.GetMergeablePairs cid))) := by
  simp only [Executor.MergePairsDry, Inventory.reconcile_within_window inv now trades h]

/-- Witness for the amended C3 at the counterexample's inputs. -/
theorem C3_merge_reconcile_rate_limited_witness :
    (60 : ℚ) - c3inv.lastReconcile < reconcileInterval ∧
    Executor.MergePairsDry c3inv "m3" 60 c3trades =
      (if c3inv.GetMergeablePairs "m3" < 1/100 then ((0 : ℚ), c3inv)
       else (c3inv.GetMergeablePairs "m3",
             c3inv.RecordMerge "m3" (c3inv.GetMergeablePairs "m3"))) :=
  ⟨by with_unfolding_all decide,
    C3_merge_reconcile_rate_limited c3inv "m3" 60 c3trades (by with_unfolding_all decide)⟩

/-! ### Claim C4 -/

/-- Counterexample to claim C4: with the default configuration (main $10,
hedge $1, cap $30), three momentum buys on the same market — each emitted
while the recorded spend was still below the cap — drive the engine's
cumulative momentum spend for the market to $31, above the $30 cap: the hedge
leg is booked on top of the cap-limited main size. -/
theorem C4_cex_momentum_spend_exceeds_cap :
    (let s1 := FSM.new.Step defaultConfig "m4" pMomentum Inventory.empty 60 0
     let s2 := s1.fsm.Step defaultConfig "m4" pMomentum Inventory.empty 60 200
     let s3 := s2.fsm.Step defaultConfig "m4" pMomentum Inventory.empty 60 400
     s1.action.kind = ActionKind.buyMomentum ∧
     s2.action.kind = ActionKind.buyMomentum ∧
     s3.action.kind = ActionKind.buyMomentum ∧
     s3.fsm.momentumSpent "m4" = 31 ∧
     defaultConfig.MomentumMaxUSDC = 30 ∧
     ¬ s3.fsm.momentumSpent "m4" ≤ defaultConfig.MomentumMaxUSDC) := by
  with_unfolding_all decide

/-! ### Claim C4 (amended) -/

/-- Effect of one `Step` call on a market's momentum spend counter: either it
is untouched, or the call was a momentum buy for that market while the
recorded spend was below the cap, in which case the cap-clipped main size and
the hedge size are added. -/
theorem FSM.step_momentumSpent_cases (cfg : Config) (f : FSM) (cid : String)
    (p : Prices) (inv : Inventory) (m t : ℚ) (id : String) :
    (f.Step cfg cid p inv m t).fsm.momentumSpent id = f.momentumSpent id ∨
    (id = cid ∧ f.momentumSpent cid < cfg.MomentumMaxUSDC ∧
      (f.Step cfg cid p inv m t).fsm.momentumSpent id =
        f.momentumSpent cid
        + (if cfg.MomentumMaxUSDC - f.momentumSpent cid < cfg.MomentumMainUSDC
           then cfg.MomentumMaxUSDC - f.momentumSpent cid else cfg.MomentumMainUSDC)
        + cfg.MomentumHedgeUSDC) := by
  simp only [FSM.Step]
  split
  · split
    · exact Or.inl rfl
    · exact Or.inl rfl
  · split
    · split
      · exact Or.inl rfl
      · split
        · exact Or.inl rfl
        · split
          · exact Or.inl rfl
          · rename_i hcap hcool
            by_cases hid : id = cid
            · subst hid
              exact Or.inr ⟨rfl, not_le.mp hcap, by simp [updFn]⟩
            · exact Or.inl (by simp [updFn, hid])
    · split
      · exact Or.inl rfl
      · split
        · split
          · exact Or.inl rfl
          · split
            · exact Or.inl rfl
            · exact Or.inl rfl
        · exact Or.inl rfl

/-- Effect of one `Step` call on a market's arbitrage spend counter: either it
is untouched, or the call was a both-sides arbitrage buy for that market while
the recorded spend was below the cap, in which case twice the order size is
added. -/
theorem FSM.step_arbSpent_cases (cfg : Config) (f : FSM) (cid : String)
    (p : Prices) (inv : Inventory) (m t : ℚ) (id : String) :
    (f.Step cfg cid p inv m t).fsm.arbSpent id = f.arbSpent id ∨
    (id = cid ∧ f.arbSpent cid < cfg.ARBMaxUSDC ∧
      (f.Step cfg cid p inv m t).fsm.arbSpent id =
        f.arbSpent cid + cfg.ARBOrderUSDC * 2) := by
  simp only [FSM.Step]
  split
  · split
    · exact Or.inl rfl
    · exact Or.inl rfl
  · split
    · split
      · exact Or.inl rfl
      · split
        · exact Or.inl rfl
        · split
          · exact Or.inl rfl
          · exact Or.inl rfl
    · split
      · exact Or.inl rfl
      · split
        · split
          · exact Or.inl rfl
          · split
            · exact Or.inl rfl
            · rename_i hcap hcool
              by_cases hid : id = cid
              · subst hid
                exact Or.inr ⟨rfl, not_le.mp hcap, by simp [updFn]⟩
              · exact Or.inl (by simp [updFn, hid])
        · exact Or.inl rfl

/-- Counterexample shows the raw cap can be exceeded; this is the bound that
does hold.  Claim C4 (amended): for every market and every sequence of Step
calls from a fresh engine, the cumulative momentum spend never exceeds
momentum-max-USDC plus the hedge size (the hedge is booked on top of the
cap-limited main size), and the cumulative arbitrage spend never exceeds
arbitrage-max-USDC plus twice the arbitrage order size. -/
theorem C4_strategy_spend_bounded (cfg : Config) (steps : List StepInput) (id : String) :
    (FSM.new.runSteps cfg steps).momentumSpent id
        ≤ max 0 (cfg.MomentumMaxUSDC + cfg.MomentumHedgeUSDC) ∧
    (FSM.new.runSteps cfg steps).arbSpent id
        ≤ max 0 (cfg.ARBMaxUSDC + cfg.ARBOrderUSDC * 2) := by
  suffices hgen : ∀ (steps : List StepInput) (f : FSM),
      f.momentumSpent id ≤ max 0 (cfg.MomentumMaxUSDC + cfg.MomentumHedgeUSDC) →
      f.arbSpent id ≤ max 0 (cfg.ARBMaxUSDC + cfg.ARBOrderUSDC * 2) →
      (f.runSteps cfg steps).momentumSpent id
          ≤ max 0 (cfg.MomentumMaxUSDC + cfg.MomentumHedgeUSDC) ∧
      (f.runSteps cfg steps).arbSpent id
          ≤ max 0 (cfg.ARBMaxUSDC + cfg.ARBOrderUSDC * 2) by
    exact hgen steps FSM.new (le_max_left 0 _) (le_max_left 0 _)
  intro steps
  induction steps with
  | nil => intro f h1 h2; exact ⟨h1, h2⟩
  | cons s rest ih =>
    intro f h1 h2
    refine ih ((f.Step cfg s.conditionID s.prices s.inv s.minutesToClose s.now).fsm) ?_ ?_
    · rcases FSM.step_momentumSpent_cases cfg f s.conditionID s.prices s.inv
          s.minutesToClose s.now id with he | ⟨hid, hlt, he⟩
      · rw [he]; exact h1
      · rw [he]
        have hmr := le_max_right (0 : ℚ) (cfg.MomentumMaxUSDC + cfg.MomentumHedgeUSDC)
        split
        · linarith
        · rename_i hge
          have hmain : cfg.MomentumMainUSDC
              ≤ cfg.MomentumMaxUSDC - f.momentumSpent s.conditionID := not_lt.mp hge
          linarith
    · rcases FSM.step_arbSpent_cases cfg f s.conditionID s.prices s.inv
          s.minutesToClose s.now id with he | ⟨hid, hlt, he⟩
      · rw [he]; exact h2
      · rw [he]
        have hmr := le_max_right (0 : ℚ) (cfg.ARBMaxUSDC + cfg.ARBOrderUSDC * 2)
        linarith

/-! ### Claims C8 and C9 -/

/-- When the momentum branch's guards all pass, `Step` emits a momentum buy
and stamps the market's last-momentum timestamp with the current time. -/
theorem FSM.step_momentum_buy (cfg : Config) (f : FSM) (cid : String) (p : Prices)
    (inv : Inventory) (m t : ℚ)
    (hstate : p.state = MarketState.MomentumUp ∨ p.state = MarketState.MomentumDown)
    (hm : ¬ m < 1)
    (hceil : ¬ p.winnerPrice > cfg.MomentumMaxEntry)
    (hcap : ¬ f.momentumSpent cid ≥ cfg.MomentumMaxUSDC)
    (hcool : cooldownActive (f.lastMomentumTS cid) momentumCooldown t = false) :
    (f.Step cfg cid p inv m t).action.kind = ActionKind.buyMomentum ∧
    (f.Step cfg cid p inv m t).fsm.lastMomentumTS cid = some t := by
  have hres : ¬ (p.state = MarketState.Resolved ∨ m < 1) := by
    rcases hstate with h | h <;> simp [h, hm]
  simp only [FSM.Step]
  rw [if_neg hres, if_pos hstate, if_neg hceil, if_neg hcap,
    if_neg (by simp [hcool] : ¬ cooldownActive (f.lastMomentumTS cid) momentumCooldown t = true)]
  exact ⟨rfl, by simp [updFn]⟩

/-- When the momentum branch reaches an active cooldown, `Step` returns the
wait action. -/
theorem FSM.step_momentum_wait (cfg : Config) (f : FSM) (cid : String) (p : Prices)
    (inv : Inventory) (m t : ℚ)
    (hstate : p.state = MarketState.MomentumUp ∨ p.state = MarketState.MomentumDown)
    (hm : ¬ m < 1)
    (hceil : ¬ p.winnerPrice > cfg.MomentumMaxEntry)
    (hcap : ¬ f.momentumSpent cid ≥ cfg.MomentumMaxUSDC)
    (hcool : cooldownActive (f.lastMomentumTS cid) momentumCooldown t = true) :
    (f.Step cfg cid p inv m t).action = WaitAction := by
  have hres : ¬ (p.state = MarketState.Resolved ∨ m < 1) := by
    rcases hstate with h | h <;> simp [h, hm]
  simp only [FSM.Step]
  rw [if_neg hres, if_pos hstate, if_neg hceil, if_neg hcap, if_pos hcool]

/-- Claim C8 (amended): if a `Step` call emits a momentum buy at time `t`, any
later `Step` on the same market within the 120-second momentum cooldown, under
a momentum regime with the winner price at or below the entry ceiling, spend
below the cap and at least one minute to close, returns `WAIT` — never a
second buy within the cooldown window. -/
theorem C8_second_buy_within_cooldown_waits (cfg : Config) (f : FSM) (id : String)
    (p1 p2 : Prices) (inv1 inv2 : Inventory) (m1 m2 t t2 : ℚ)
    (hstate1 : p1.state = MarketState.MomentumUp ∨ p1.state = MarketState.MomentumDown)
    (hm1 : ¬ m1 < 1)
    (hceil1 : p1.winnerPrice ≤ cfg.MomentumMaxEntry)
    (hcap1 : f.momentumSpent id < cfg.MomentumMaxUSDC)
    (hcool1 : cooldownActive (f.lastMomentumTS id) momentumCooldown t = false)
    (hstate2 : p2.state = MarketState.MomentumUp ∨ p2.state = MarketState.MomentumDown)
    (hm2 : ¬ m2 < 1)
    (hceil2 : p2.winnerPrice ≤ cfg.MomentumMaxEntry)
    (hcap2 : (f.Step cfg id p1 inv1 m1 t).fsm.momentumSpent id < cfg.MomentumMaxUSDC)
    (hgap : t2 - t < momentumCooldown) :
    (f.Step cfg id p1 inv1 m1 t).action.kind = ActionKind.buyMomentum ∧
    ((f.Step cfg id p1 inv1 m1 t).fsm.Step cfg id p2 inv2 m2 t2).action = WaitAction := by
  obtain ⟨hbuy, hts⟩ := FSM.step_momentum_buy cfg f id p1 inv1 m1 t hstate1 hm1
    (not_lt.mpr hceil1) (not_le.mpr hcap1) hcool1
  refine ⟨hbuy, ?_⟩
  have hcool2 : cooldownActive ((f.Step cfg id p1 inv1 m1 t).fsm.lastMomentumTS id)
      momentumCooldown t2 = true := by
    rw [hts]
    simp only [cooldownActive, decide_eq_true_eq]
    linarith
  exact FSM.step_momentum_wait cfg _ id p2 inv2 m2 t2 hstate2 hm2
    (not_lt.mpr hceil2) (not_le.mpr hcap2) hcool2

/-- Witness for the amended C8: a first buy at `t = 0` on a fresh engine, then
a call 60 seconds later with the same momentum prices and 60 minutes to close
returns the wait action. -/
theorem C8_second_buy_within_cooldown_waits_witness :
    (pMomentum.state = MarketState.MomentumUp ∨
      pMomentum.state = MarketState.MomentumDown) ∧
    ¬ (60 : ℚ) < 1 ∧
    pMomentum.winnerPrice ≤ defaultConfig.MomentumMaxEntry ∧
    FSM.new.momentumSpent "m8" < defaultConfig.MomentumMaxUSDC ∧
    cooldownActive (FSM.new.lastMomentumTS "m8") momentumCooldown 0 = false ∧
    (FSM.new.Step defaultConfig "m8" pMomentum Inventory.empty 60 0).fsm.momentumSpent "m8"
      < defaultConfig.MomentumMaxUSDC ∧
    (60 : ℚ) - 0 < momentumCooldown ∧
    ((FSM.new.Step defaultConfig "m8" pMomentum Inventory.empty 60 0).action.kind
        = ActionKind.buyMomentum ∧
     ((FSM.new.Step defaultConfig "m8" pMomentum Inventory.empty 60 0).fsm.Step
        defaultConfig "m8" pMomentum Inventory.empty 60 60).action = WaitAction) :=
  ⟨by with_unfolding_all decide, by with_unfolding_all decide, by with_unfolding_all decide,
   by with_unfolding_all decide, by with_unfolding_all decide, by with_unfolding_all decide,
   by with_unfolding_all decide,
   C8_second_buy_within_cooldown_waits defaultConfig FSM.new "m8" pMomentum pMomentum
     Inventory.empty Inventory.empty 60 60 0 60
     (by with_unfolding_all decide) (by with_unfolding_all decide)
     (by with_unfolding_all decide) (by with_unfolding_all decide)
     (by with_unfolding_all decide) (by with_unfolding_all decide)
     (by with_unfolding_all decide) (by with_unfolding_all decide)
     (by with_unfolding_all decide) (by with_unfolding_all decide)⟩

/-- Counterexample to claim C8 as stated: after a momentum buy at `t = 0`, a
second call 60 seconds later — within the cooldown, momentum regime, winner at
or below the ceiling, spend below the cap — returns `SKIP` rather than `WAIT`
when the market has less than one minute to close, because the resolution
check precedes the momentum branch. -/
theorem C8_cex_resolution_overrides_wait :
    (let s1 := FSM.new.Step defaultConfig "m8" pMomentum Inventory.empty 60 0
     s1.action.kind = ActionKind.buyMomentum ∧
     (60 : ℚ) - 0 < momentumCooldown ∧
     pMomentum.state = MarketState.MomentumUp ∧
     pMomentum.winnerPrice ≤ defaultConfig.MomentumMaxEntry ∧
     s1.fsm.momentumSpent "m8" < defaultConfig.MomentumMaxUSDC ∧
     (s1.fsm.Step defaultConfig "m8" pMomentum Inventory.empty (1/2) 60).action.kind
       = ActionKind.skip ∧
     ActionKind.skip ≠ ActionKind.wait) := by
  with_unfolding_all decide

/-- When the momentum regime is dispatched with the spend cap reached, `Step`
returns the skip action (via the price-ceiling check or the cap check). -/
theorem FSM.step_momentum_cap_skip (cfg : Config) (f : FSM) (cid : String)
    (p : Prices) (inv : Inventory) (m t : ℚ)
    (hstate : p.state = MarketState.MomentumUp ∨ p.state = MarketState.MomentumDown)
    (hm : ¬ m < 1)
    (hcap : f.momentumSpent cid ≥ cfg.MomentumMaxUSDC) :
    (f.Step cfg cid p inv m t).action = SkipAction := by
  have hres : ¬ (p.state = MarketState.Resolved ∨ m < 1) := by
    rcases hstate with h | h <;> simp [h, hm]
  simp only [FSM.Step]
  rw [if_neg hres, if_pos hstate]
  by_cases hceil : p.winnerPrice > cfg.MomentumMaxEntry
  · rw [if_pos hceil]
  · rw [if_neg hceil, if_pos hcap]

/-- When the arbitrage regime is dispatched with the spend cap reached, `Step`
returns the skip action. -/
theorem FSM.step_arb_cap_skip (cfg : Config) (f : FSM) (cid : String)
    (p : Prices) (inv : Inventory) (m t : ℚ)
    (hstate : p.state = MarketState.ARB)
    (hm : ¬ m < 1)
    (hcap : f.arbSpent cid ≥ cfg.ARBMaxUSDC) :
    (f.Step cfg cid p inv m t).action = SkipAction := by
  have hres : ¬ (p.state = MarketState.Resolved ∨ m < 1) := by simp [hstate, hm]
  have hmom : ¬ (p.state = MarketState.MomentumUp ∨ p.state = MarketState.MomentumDown) := by
    simp [hstate]
  have hgrey : ¬ p.state = MarketState.Grey := by simp [hstate]
  simp only [FSM.Step]
  rw [if_neg hres, if_neg hmom, if_neg hgrey, if_pos hstate, if_pos hcap]

/-- A single `Step` call never brings a market's momentum spend back below
the cap. -/
theorem FSM.step_preserves_momentum_cap (cfg : Config) (f : FSM) (cid : String)
    (p : Prices) (inv : Inventory) (m t : ℚ) (id : String)
    (h : f.momentumSpent id ≥ cfg.MomentumMaxUSDC) :
    (f.Step cfg cid p inv m t).fsm.momentumSpent id ≥ cfg.MomentumMaxUSDC := by
  rcases FSM.step_momentumSpent_cases cfg f cid p inv m t id with he | ⟨hid, hlt, he⟩
  · rw [he]; exact h
  · subst hid; exact absurd h (not_le.mpr hlt)

/-- A single `Step` call never brings a market's arbitrage spend back below
the cap. -/
theorem FSM.step_preserves_arb_cap (cfg : Config) (f : FSM) (cid : String)
    (p : Prices) (inv : Inventory) (m t : ℚ) (id : String)
    (h : f.arbSpent id ≥ cfg.ARBMaxUSDC) :
    (f.Step cfg cid p inv m t).fsm.arbSpent id ≥ cfg.ARBMaxUSDC := by
  rcases FSM.step_arbSpent_cases cfg f cid p inv m t id with he | ⟨hid, hlt, he⟩
  · rw [he]; exact h
  · subst hid; exact absurd h (not_le.mpr hlt)

/-- No sequence of `Step` calls brings a market's momentum spend back below
the cap. -/
theorem FSM.runSteps_preserves_momentum_cap (cfg : Config) (steps : List StepInput) :
    ∀ (f : FSM) (id : String), f.momentumSpent id ≥ cfg.MomentumMaxUSDC →
      (f.runSteps cfg steps).momentumSpent id ≥ cfg.MomentumMaxUSDC := by
  induction steps with
  | nil => intro f id h; exact h
  | cons s rest ih =>
    intro f id h
    exact ih _ id (FSM.step_preserves_momentum_cap cfg f s.conditionID s.prices s.inv
      s.minutesToClose s.now id h)

/-- No sequence of `Step` calls brings a market's arbitrage spend back below
the cap. -/
theorem FSM.runSteps_preserves_arb_cap (cfg : Config) (steps : List StepInput) :
    ∀ (f : FSM) (id : String), f.arbSpent id ≥ cfg.ARBMaxUSDC →
      (f.runSteps cfg steps).arbSpent id ≥ cfg.ARBMaxUSDC := by
  induction steps with
  | nil => intro f id h; exact h
  | cons s rest ih =>
    intro f id h
    exact ih _ id (FSM.step_preserves_arb_cap cfg f s.conditionID s.prices s.inv
      s.minutesToClose s.now id h)

/-- Claim C9 (amended): once a strategy's recorded spend for a market has
reached its cap, every subsequent `Step` call dispatched to that strategy's
regime with at least one minute to close returns `SKIP`, regardless of the
`Step` calls made in between (the counters never decrease, and the cap check
fires before any buy). -/
theorem C9_cap_reached_skips_forever (cfg : Config) (f : FSM) (id : String)
    (steps : List StepInput) (p : Prices) (inv : Inventory) (m t : ℚ)
    (hm : ¬ m < 1) :
    ((p.state = MarketState.MomentumUp ∨ p.state = MarketState.MomentumDown) →
      f.momentumSpent id ≥ cfg.MomentumMaxUSDC →
      ((f.runSteps cfg steps).Step cfg id p inv m t).action = SkipAction) ∧
    (p.state = MarketState.ARB →
      f.arbSpent id ≥ cfg.ARBMaxUSDC →
      ((f.runSteps cfg steps).Step cfg id p inv m t).action = SkipAction) := by
  constructor
  · intro hstate hcap
    exact FSM.step_momentum_cap_skip cfg _ id p inv m t hstate hm
      (FSM.runSteps_preserves_momentum_cap cfg steps f id hcap)
  · intro hstate hcap
    exact FSM.step_arb_cap_skip cfg _ id p inv m t hstate hm
      (FSM.runSteps_preserves_arb_cap cfg steps f id hcap)

/-- Witness for the amended C9: an engine that has spent the full $30 momentum
cap on market "m9" skips a later momentum tick with 60 minutes to close. -/
theorem C9_cap_reached_skips_forever_witness :
    ¬ (60 : ℚ) < 1 ∧
    (((pMomentum.state = MarketState.MomentumUp ∨
        pMomentum.state = MarketState.MomentumDown) →
      c9fsm.momentumSpent "m9" ≥ defaultConfig.MomentumMaxUSDC →
      ((c9fsm.runSteps defaultConfig []).Step defaultConfig "m9" pMomentum c9inv 60 0).action
        = SkipAction) ∧
     (pMomentum.state = MarketState.ARB →
      c9fsm.arbSpent "m9" ≥ defaultConfig.ARBMaxUSDC →
      ((c9fsm.runSteps defaultConfig []).Step defaultConfig "m9" pMomentum c9inv 60 0).action
        = SkipAction)) :=
  ⟨by with_unfolding_all decide,
    C9_cap_reached_skips_forever defaultConfig c9fsm "m9" [] pMomentum c9inv 60 0
      (by with_unfolding_all decide)⟩

/-- Counterexample to claim C9 as stated: with the momentum cap reached on
"m9" and a momentum regime, a call with half a minute to close returns `MERGE`
rather than `SKIP` — the resolution check precedes the strategy branches. -/
theorem C9_cex_resolution_overrides_skip :
    c9fsm.momentumSpent "m9" ≥ defaultConfig.MomentumMaxUSDC ∧
    pMomentum.state = MarketState.MomentumUp ∧
    (c9fsm.Step defaultConfig "m9" pMomentum c9inv (1/2) 0).action.kind
      = ActionKind.merge ∧
    ActionKind.merge ≠ ActionKind.skip := by
  with_unfolding_all decide

end PolymarketBot
